import Mathlib

/-!
Verification development for the vds repository (virtual-dataset composition for
EuXFEL detector runs).  The definitions below are a shallow embedding of the
relevant parts of `src/process/vds_process.py`, `src/process/agipd.py` and
`src/config.py`: numpy arrays of train identifiers become `List Nat`,
`np.intersect1d` becomes `intersect1d` (the strictly sorted list of values
present in both inputs), `functools.reduce` becomes `reduce1`, floating-point
detector arrays become `ℚ`-valued functions over `Fin`-indexed shapes, and the
HDF5 output file becomes an association list of dataset keys.
-/

namespace Vds

/-- Every member of a list is bounded by the `foldr max 0` of the list. -/
lemma le_foldr_max (l : List Nat) (x : Nat) (hx : x ∈ l) : x ≤ l.foldr max 0 := by
  induction l with
  | nil => cases hx
  | cons a t ih =>
    rcases List.mem_cons.mp hx with rfl | h
    · exact le_max_left _ _
    · exact le_trans (ih h) (le_max_right _ _)

/-- The strictly increasing enumeration of the set of values of a list of
naturals; this is the canonical sorted-unique form that `np.intersect1d`
returns. -/
def sortedDedup (l : List Nat) : List Nat :=
  (List.range (l.foldr max 0 + 1)).filter (fun x => decide (x ∈ l))

/-- Embedding of `np.intersect1d(a, b)` (used at `vds_process.py` lines 47, 71,
197, 204): the sorted list, without duplicates, of the values present in both
input arrays. -/
def intersect1d (a b : List Nat) : List Nat :=
  sortedDedup (a.filter (fun x => decide (x ∈ b)))

lemma mem_sortedDedup {l : List Nat} {x : Nat} : x ∈ sortedDedup l ↔ x ∈ l := by
  unfold sortedDedup
  simp only [List.mem_filter, List.mem_range, decide_eq_true_eq]
  constructor
  · rintro ⟨-, h⟩; exact h
  · intro h; exact ⟨Nat.lt_succ_of_le (le_foldr_max l x h), h⟩

lemma pairwise_sortedDedup (l : List Nat) : (sortedDedup l).Pairwise (· < ·) :=
  (List.pairwise_lt_range _).filter _

/-- Extending the range beyond a bound of the list does not change the filter. -/
lemma filter_range_add (l : List Nat) (A k : Nat) (hA : ∀ x ∈ l, x < A) :
    (List.range (A + k)).filter (fun x => decide (x ∈ l)) =
      (List.range A).filter (fun x => decide (x ∈ l)) := by
  induction k with
  | zero => rfl
  | succ n ih =>
    rw [show A + (n + 1) = (A + n) + 1 by omega, List.range_succ, List.filter_append, ih]
    have h0 : List.filter (fun x => decide (x ∈ l)) [A + n] = [] := by
      simp only [List.filter, List.filter_nil]
      have : ¬ (A + n ∈ l) := fun hmem => by have := hA _ hmem; omega
      simp [this]
    rw [h0, List.append_nil]

/-- `sortedDedup` equals the filtered range for any sufficiently large bound. -/
lemma sortedDedup_eq_filter_range (l : List Nat) (N : Nat) (hN : ∀ x ∈ l, x < N) :
    sortedDedup l = (List.range N).filter (fun x => decide (x ∈ l)) := by
  have hMb : ∀ x ∈ l, x < l.foldr max 0 + 1 :=
    fun x hx => Nat.lt_succ_of_le (le_foldr_max l x hx)
  set M := l.foldr max 0 + 1 with hM
  have e1 : (List.range (M + (max M N - M))).filter (fun x => decide (x ∈ l)) =
      (List.range M).filter (fun x => decide (x ∈ l)) := filter_range_add l M _ hMb
  have e2 : (List.range (N + (max M N - N))).filter (fun x => decide (x ∈ l)) =
      (List.range N).filter (fun x => decide (x ∈ l)) := filter_range_add l N _ hN
  have h1 : M + (max M N - M) = max M N := by omega
  have h2 : N + (max M N - N) = max M N := by omega
  rw [h1] at e1
  rw [h2] at e2
  unfold sortedDedup
  rw [← hM, ← e1, e2]

/-- Two strictly increasing lists of naturals with the same members are equal. -/
lemma pairwise_lt_ext : ∀ {l₁ l₂ : List Nat}, l₁.Pairwise (· < ·) →
    l₂.Pairwise (· < ·) → (∀ x, x ∈ l₁ ↔ x ∈ l₂) → l₁ = l₂ := by
  intro l₁
  induction l₁ with
  | nil =>
    intro l₂ _ _ hmem
    cases l₂ with
    | nil => rfl
    | cons b t =>
      have : b ∈ ([] : List Nat) := (hmem b).mpr (List.mem_cons_self b t)
      cases this
  | cons a t ih =>
    intro l₂ h₁ h₂ hmem
    cases l₂ with
    | nil =>
      have : a ∈ ([] : List Nat) := (hmem a).mp (List.mem_cons_self a t)
      cases this
    | cons b t₂ =>
      have hp₁ := List.pairwise_cons.mp h₁
      have hp₂ := List.pairwise_cons.mp h₂
      have hab : a = b := by
        have ha2 : a ∈ b :: t₂ := (hmem a).mp (List.mem_cons_self a t)
        have hb1 : b ∈ a :: t := (hmem b).mpr (List.mem_cons_self b t₂)
        rcases List.mem_cons.mp ha2 with h | h
        · exact h
        · rcases List.mem_cons.mp hb1 with h2 | h2
          · exact h2.symm
          · have hba := hp₂.1 a h
            have hab := hp₁.1 b h2
            omega
      subst hab
      have htail : ∀ x, x ∈ t ↔ x ∈ t₂ := by
        intro x
        constructor
        · intro hx
          have hxa : a < x := hp₁.1 x hx
          rcases List.mem_cons.mp ((hmem x).mp (List.mem_cons_of_mem a hx)) with rfl | h
          · omega
          · exact h
        · intro hx
          have hxa : a < x := hp₂.1 x hx
          rcases List.mem_cons.mp ((hmem x).mpr (List.mem_cons_of_mem a hx)) with rfl | h
          · omega
          · exact h
      rw [ih hp₁.2 hp₂.2 htail]

lemma mem_intersect1d {a b : List Nat} {x : Nat} :
    x ∈ intersect1d a b ↔ x ∈ a ∧ x ∈ b := by
  unfold intersect1d
  rw [mem_sortedDedup]
  simp [List.mem_filter]

lemma pairwise_intersect1d (a b : List Nat) : (intersect1d a b).Pairwise (· < ·) :=
  pairwise_sortedDedup _

lemma nodup_intersect1d (a b : List Nat) : (intersect1d a b).Nodup :=
  (pairwise_intersect1d a b).imp (fun h => Nat.ne_of_lt h)

/-- A duplicate-free list whose members all occur in another list is no longer
than that list. -/
lemma length_le_of_nodup_subset {l₁ l₂ : List Nat} (h₁ : l₁.Nodup)
    (hsub : ∀ x ∈ l₁, x ∈ l₂) : l₁.length ≤ l₂.length := by
  calc l₁.length = l₁.toFinset.card := (List.toFinset_card_of_nodup h₁).symm
    _ ≤ l₂.toFinset.card := Finset.card_le_card (fun x hx => by
        rw [List.mem_toFinset] at hx ⊢
        exact hsub x hx)
    _ ≤ l₂.length := l₂.toFinset_card_le

lemma length_intersect1d_le_left (a b : List Nat) :
    (intersect1d a b).length ≤ a.length :=
  length_le_of_nodup_subset (nodup_intersect1d a b)
    (fun _x hx => (mem_intersect1d.mp hx).1)

lemma length_intersect1d_le_right (a b : List Nat) :
    (intersect1d a b).length ≤ b.length :=
  length_le_of_nodup_subset (nodup_intersect1d a b)
    (fun _x hx => (mem_intersect1d.mp hx).2)

lemma intersect1d_nil_left (b : List Nat) : intersect1d [] b = [] :=
  pairwise_lt_ext (pairwise_intersect1d _ _) List.Pairwise.nil
    (fun _x => by simp [mem_intersect1d])

lemma intersect1d_nil_right (a : List Nat) : intersect1d a [] = [] :=
  pairwise_lt_ext (pairwise_intersect1d _ _) List.Pairwise.nil
    (fun _x => by simp [mem_intersect1d])

/-- Embedding of Python `functools.reduce(f, xs)` (`vds_process.py` line 47):
the left fold of `f` over the tail starting from the head, `none` on an empty
list (where Python raises `TypeError`). -/
def reduce1 {α : Type} (f : α → α → α) : List α → Option α
  | [] => none
  | x :: xs => some (xs.foldl f x)

lemma foldl_intersect1d_pairwise :
    ∀ (rest : List (List Nat)) (acc : List Nat), rest ≠ [] →
      (rest.foldl intersect1d acc).Pairwise (· < ·)
  | [], _, h => absurd rfl h
  | [r], acc, _ => pairwise_intersect1d acc r
  | r :: s :: t, acc, _ => by
    rw [List.foldl_cons]
    exact foldl_intersect1d_pairwise (s :: t) (intersect1d acc r) (by simp)

lemma foldl_intersect1d_length_le_acc :
    ∀ (rest : List (List Nat)) (acc : List Nat),
      (rest.foldl intersect1d acc).length ≤ acc.length
  | [], _ => le_refl _
  | r :: t, acc => by
    rw [List.foldl_cons]
    exact le_trans (foldl_intersect1d_length_le_acc t (intersect1d acc r))
      (length_intersect1d_le_left acc r)

lemma foldl_intersect1d_length_le_mem :
    ∀ (rest : List (List Nat)) (acc u : List Nat), u ∈ rest →
      (rest.foldl intersect1d acc).length ≤ u.length
  | [], _, _, h => absurd h (by simp)
  | r :: t, acc, u, h => by
    rw [List.foldl_cons]
    rcases List.mem_cons.mp h with rfl | h
    · exact le_trans (foldl_intersect1d_length_le_acc t _)
        (length_intersect1d_le_right acc u)
    · exact foldl_intersect1d_length_le_mem t _ u h

lemma mem_foldl_intersect1d :
    ∀ (rest : List (List Nat)) (acc : List Nat) (x : Nat), rest ≠ [] →
      (x ∈ rest.foldl intersect1d acc ↔ x ∈ acc ∧ ∀ u ∈ rest, x ∈ u)
  | [], _, _, h => absurd rfl h
  | [r], acc, x, _ => by simp [mem_intersect1d]
  | r :: s :: t, acc, x, _ => by
    rw [List.foldl_cons, mem_foldl_intersect1d (s :: t) _ x (by simp), mem_intersect1d]
    constructor
    · rintro ⟨⟨h1, h2⟩, h3⟩
      refine ⟨h1, ?_⟩
      intro u hu
      rcases List.mem_cons.mp hu with rfl | hu
      · exact h2
      · exact h3 u hu
    · rintro ⟨h1, h2⟩
      exact ⟨⟨h1, h2 r (List.mem_cons_self r _)⟩,
        fun u hu => h2 u (List.mem_cons_of_mem r hu)⟩

/-- Permutation invariance of the folded intersection. -/
lemma reduce1_intersect1d_perm : ∀ {ts ts' : List (List Nat)}, ts.Perm ts' →
    reduce1 intersect1d ts = reduce1 intersect1d ts' := by
  intro ts ts' h
  cases ts with
  | nil =>
    have : ts' = [] := (h.symm).eq_nil
    subst this; rfl
  | cons a t =>
    cases t with
    | nil =>
      have : ts' = [a] := List.perm_singleton.mp h.symm
      subst this; rfl
    | cons a2 t2 =>
      cases ts' with
      | nil => exact absurd h.length_eq (by simp)
      | cons b t' =>
        cases t' with
        | nil => exact absurd h.length_eq (by simp)
        | cons b2 t2' =>
          show some _ = some _
          congr 1
          apply pairwise_lt_ext
          · exact foldl_intersect1d_pairwise _ _ (by simp)
          · exact foldl_intersect1d_pairwise _ _ (by simp)
          · intro x
            rw [mem_foldl_intersect1d _ _ _ (by simp),
              mem_foldl_intersect1d _ _ _ (by simp),
              ← @List.forall_mem_cons _ (fun u => x ∈ u) a (a2 :: t2),
              ← @List.forall_mem_cons _ (fun u => x ∈ u) b (b2 :: t2')]
            exact ⟨fun hx u hu => hx u (h.mem_iff.mpr hu),
              fun hx u hu => hx u (h.mem_iff.mp hu)⟩

/-- C2: the pairwise train-set intersection `np.intersect1d` is commutative and
associative on arbitrary ID lists (hence on sorted sets); intersecting with an
empty set yields the empty result; and the left-fold intersection over module
timelines (`reduce(np.intersect1d, agipd_trains)`, `vds_process.py` line 47)
is invariant under any permutation of the module order. -/
theorem intersect1d_alg_laws :
    (∀ A B C : List Nat,
      intersect1d (intersect1d A B) C = intersect1d A (intersect1d B C)) ∧
    (∀ A B : List Nat, intersect1d A B = intersect1d B A) ∧
    (∀ B : List Nat, intersect1d [] B = [] ∧ intersect1d B [] = []) ∧
    (∀ ts ts' : List (List Nat), ts.Perm ts' →
      reduce1 intersect1d ts = reduce1 intersect1d ts') := by
  refine ⟨?_, ?_, ?_, fun ts ts' h => reduce1_intersect1d_perm h⟩
  · intro A B C
    apply pairwise_lt_ext (pairwise_intersect1d _ _) (pairwise_intersect1d _ _)
    intro x
    simp only [mem_intersect1d]
    tauto
  · intro A B
    apply pairwise_lt_ext (pairwise_intersect1d _ _) (pairwise_intersect1d _ _)
    intro x
    simp only [mem_intersect1d]
    tauto
  · exact fun B => ⟨intersect1d_nil_left B, intersect1d_nil_right B⟩

/-- Witness for C2: the algebraic laws applied at concrete sorted ID sets, and
fold-order independence at a concrete pair of module timelines. -/
theorem intersect1d_alg_laws_witness :
    reduce1 intersect1d [[1, 2, 3, 5], [2, 3, 4, 5]] =
      reduce1 intersect1d [[2, 3, 4, 5], [1, 2, 3, 5]] :=
  intersect1d_alg_laws.2.2.2 [[1, 2, 3, 5], [2, 3, 4, 5]]
    [[2, 3, 4, 5], [1, 2, 3, 5]] (List.Perm.swap _ _ _)

/-- The two per-file train-index tables read by `process_module`
(`vds_process.py` lines 67-72): `trains1` is the file's `INDEX/trainId` table,
`trains2` the module's `header/trainId` table. -/
structure ModuleFile where
  trains1 : List Nat
  trains2 : List Nat
deriving DecidableEq

/-- Embedding of `process_module` (`vds_process.py` lines 55-77): per file,
intersect the two internal train tables, then concatenate the per-file results
in file order. -/
def process_module (files : List ModuleFile) : List Nat :=
  (files.map (fun fl => intersect1d fl.trains1 fl.trains2)).flatten

/-- Embedding of the module loop of `process_agipd` (`vds_process.py` lines
37-46): walk the module mask from module id `k`; a flagged module with
discovered files keeps its flag and contributes its `process_module` timeline;
a flagged module with no files has its mask entry cleared and contributes
nothing; an unflagged module is untouched.  Returns the updated mask and the
list of contributed timelines in module order. -/
def process_agipd_loop (files : Nat → List ModuleFile) :
    List Bool → Nat → List Bool × List (List Nat)
  | [], _ => ([], [])
  | b :: rest, k =>
    let r := process_agipd_loop files rest (k + 1)
    if b then
      if (files k).isEmpty then (false :: r.1, r.2)
      else (true :: r.1, process_module (files k) :: r.2)
    else (b :: r.1, r.2)

/-- Embedding of the cross-detector intersections of `create_vds`
(`vds_process.py` lines 195-208): the folded AGIPD train list is intersected
with the EPIX-1 timeline when EPIX-1 files are present, then with the EPIX-2
timeline when EPIX-2 files are present. -/
def create_vds_trains (agipdTrains : List Nat)
    (e1Trains e2Trains : Option (List Nat)) : List Nat :=
  let t1 := match e1Trains with
    | some ts => intersect1d agipdTrains ts
    | none => agipdTrains
  match e2Trains with
  | some ts => intersect1d t1 ts
  | none => t1

lemma create_vds_trains_length_le_agipd (t0 : List Nat)
    (e1 e2 : Option (List Nat)) :
    (create_vds_trains t0 e1 e2).length ≤ t0.length := by
  cases e1 with
  | none =>
    cases e2 with
    | none => exact le_refl _
    | some ts => exact length_intersect1d_le_left t0 ts
  | some ts =>
    cases e2 with
    | none => exact length_intersect1d_le_left t0 ts
    | some ts2 =>
      exact le_trans (length_intersect1d_le_left _ ts2)
        (length_intersect1d_le_left t0 ts)

lemma create_vds_trains_length_le_e1 (t0 ts : List Nat)
    (e2 : Option (List Nat)) :
    (create_vds_trains t0 (some ts) e2).length ≤ ts.length := by
  cases e2 with
  | none => exact length_intersect1d_le_right t0 ts
  | some ts2 =>
    exact le_trans (length_intersect1d_le_left _ ts2)
      (length_intersect1d_le_right t0 ts)

lemma create_vds_trains_length_le_e2 (t0 ts : List Nat)
    (e1 : Option (List Nat)) :
    (create_vds_trains t0 e1 (some ts)).length ≤ ts.length := by
  cases e1 with
  | none => exact length_intersect1d_le_right t0 ts
  | some ts1 => exact length_intersect1d_le_right _ ts

/-- C1 (amended): the aligned train sequence produced by the fold of pairwise
intersections in `process_agipd` followed by the cross-detector intersections
in `create_vds` is strictly increasing (hence duplicate-free) whenever at
least two module timelines are folded or at least one auxiliary detector is
present; its length never exceeds the length of any contributing module
timeline nor of any present auxiliary timeline; and each module timeline is at
most as long as either of the module's raw per-file train tables summed over
its files.  (As originally stated the claim fails: with a single active module
and no auxiliary detector, `reduce` returns the concatenated per-file
timeline unchanged, which need not be sorted; see the counterexample.) -/
theorem aligned_trains_ordered :
    (∀ (tls : List (List Nat)) (t0 : List Nat) (e1 e2 : Option (List Nat)),
      reduce1 intersect1d tls = some t0 →
      ((2 ≤ tls.length ∨ e1.isSome ∨ e2.isSome) →
        (create_vds_trains t0 e1 e2).Pairwise (· < ·)) ∧
      (∀ tl ∈ tls, (create_vds_trains t0 e1 e2).length ≤ tl.length) ∧
      (∀ ts, e1 = some ts → (create_vds_trains t0 e1 e2).length ≤ ts.length) ∧
      (∀ ts, e2 = some ts → (create_vds_trains t0 e1 e2).length ≤ ts.length)) ∧
    (∀ files : List ModuleFile,
      (process_module files).length ≤
        (files.map (fun fl => fl.trains1.length)).sum ∧
      (process_module files).length ≤
        (files.map (fun fl => fl.trains2.length)).sum) := by
  constructor
  · intro tls t0 e1 e2 hred
    cases tls with
    | nil => cases hred
    | cons t rest =>
      have ht0 : t0 = rest.foldl intersect1d t := by
        simpa [reduce1] using hred.symm
      refine ⟨?_, ?_, ?_, ?_⟩
      · intro hdis
        rcases e2 with _ | ts2
        · rcases e1 with _ | ts1
          · rcases hdis with h2 | h2 | h2
            · have hrest : rest ≠ [] := by
                intro hr; rw [hr] at h2; simp at h2
              simpa [create_vds_trains, ht0] using
                foldl_intersect1d_pairwise rest t hrest
            · simp at h2
            · simp at h2
          · simpa [create_vds_trains] using
              pairwise_intersect1d t0 ts1
        · rcases e1 with _ | ts1
          · simpa [create_vds_trains] using pairwise_intersect1d t0 ts2
          · simpa [create_vds_trains] using
              pairwise_intersect1d (intersect1d t0 ts1) ts2
      · intro tl htl
        have hb : t0.length ≤ tl.length := by
          rcases List.mem_cons.mp htl with rfl | h
          · rw [ht0]; exact foldl_intersect1d_length_le_acc rest tl
          · rw [ht0]; exact foldl_intersect1d_length_le_mem rest t tl h
        exact le_trans (create_vds_trains_length_le_agipd t0 e1 e2) hb
      · rintro ts rfl
        exact create_vds_trains_length_le_e1 t0 ts e2
      · rintro ts rfl
        exact create_vds_trains_length_le_e2 t0 ts e1
  · intro files
    constructor
    · unfold process_module
      rw [List.length_flatten, List.map_map]
      exact List.sum_le_sum (fun fl _ =>
        length_intersect1d_le_left fl.trains1 fl.trains2)
    · unfold process_module
      rw [List.length_flatten, List.map_map]
      exact List.sum_le_sum (fun fl _ =>
        length_intersect1d_le_right fl.trains1 fl.trains2)

/-- Witness for C1: the spec scenario, module timelines `[1,2,3,5]` and
`[2,3,4,5]` folded and intersected with an EPIX-1 timeline, yields a strictly
increasing aligned sequence. -/
theorem aligned_trains_ordered_witness :
    (create_vds_trains [2, 3, 5] (some [2, 5, 6]) none).Pairwise (· < ·) :=
  ((aligned_trains_ordered.1 [[1, 2, 3, 5], [2, 3, 4, 5]] [2, 3, 5]
    (some [2, 5, 6]) none (by decide)).1) (Or.inl (by decide))

/-- Run with a single active module (module 0) whose two files carry trains
`7` and `3`; no auxiliary detector files. -/
def cexFilesC1 : Nat → List ModuleFile := fun i =>
  if i = 0 then [⟨[7], [7]⟩, ⟨[3], [3]⟩] else []

def cexMaskC1 : List Bool :=
  [true, false, false, false, false, false, false, false,
   false, false, false, false, false, false, false, false]

/-- Counterexample to C1 as stated: with exactly one active module and no
auxiliary detector, `reduce(np.intersect1d, ...)` returns the single
concatenated module timeline unchanged, and the aligned train sequence
`[7, 3]` is not strictly increasing. -/
theorem aligned_trains_not_sorted_cex :
    (process_agipd_loop cexFilesC1 cexMaskC1 0).2 = [[7, 3]] ∧
    reduce1 intersect1d [[7, 3]] = some [7, 3] ∧
    create_vds_trains [7, 3] none none = [7, 3] ∧
    ¬ (create_vds_trains [7, 3] none none).Pairwise (· < ·) := by decide

/-- C5 (amended): a configured module's mask entry survives `process_agipd`
exactly when the module has at least one discoverable file
(`vds_process.py` lines 37-46): the mask entry for module `k + i` becomes
`b && not (files (k+i)).isEmpty`.  A configured module whose files exist is
always included in the cross-module fold — even when its internal train
intersection is empty — contrary to the claim, which says such a module is
deactivated and excluded (see the counterexample). -/
theorem modules_mask_update :
    ∀ (files : Nat → List ModuleFile) (mask : List Bool) (k i : Nat),
      ((process_agipd_loop files mask k).1.get? i =
        (mask.get? i).map (fun b => b && !(files (k + i)).isEmpty)) ∧
      (mask.get? i = some true → files (k + i) ≠ [] →
        process_module (files (k + i)) ∈ (process_agipd_loop files mask k).2) := by
  intro files mask
  induction mask with
  | nil =>
    intro k i
    constructor
    · simp [process_agipd_loop]
    · intro h; simp at h
  | cons b rest ih =>
    intro k i
    have hk1 : ∀ j : Nat, k + (j + 1) = (k + 1) + j := by omega
    constructor
    · cases i with
      | zero =>
        cases b with
        | false => simp [process_agipd_loop]
        | true =>
          by_cases hf : (files k).isEmpty
          · simp [process_agipd_loop, hf]
          · simp [process_agipd_loop, hf]
      | succ i =>
        have := (ih (k + 1) i).1
        rw [hk1 i]
        cases b with
        | false => simpa [process_agipd_loop] using this
        | true =>
          by_cases hf : (files k).isEmpty
          · simpa [process_agipd_loop, hf] using this
          · simpa [process_agipd_loop, hf] using this
    · cases i with
      | zero =>
        intro hb hf
        have hb' : b = true := by simpa using hb
        subst hb'
        have hf' : (files (k + 0)).isEmpty = false := by
          simpa [List.isEmpty_iff] using hf
        simp only [Nat.add_zero] at hf' ⊢
        simp [process_agipd_loop, hf']
      | succ i =>
        intro hb hf
        have hb' : rest.get? i = some true := by simpa using hb
        rw [hk1 i] at hf ⊢
        have hmem := (ih (k + 1) i).2 hb' hf
        cases b with
        | false => simpa [process_agipd_loop] using hmem
        | true =>
          by_cases hfk : (files k).isEmpty
          · simpa [process_agipd_loop, hfk] using hmem
          · simp only [process_agipd_loop, hfk]
            simpa using List.mem_cons_of_mem _ hmem

/-- A single configured module with one file. -/
def cexFilesC5w : Nat → List ModuleFile := fun _ => [⟨[1], [1]⟩]

/-- Witness for C5: at a concrete mask and file table, the mask entry is kept
and the module timeline is contributed. -/
theorem modules_mask_update_witness :
    ((process_agipd_loop cexFilesC5w [true] 0).1.get? 0 =
      (([true] : List Bool).get? 0).map
        (fun b => b && !(cexFilesC5w (0 + 0)).isEmpty)) ∧
    process_module (cexFilesC5w (0 + 0)) ∈
      (process_agipd_loop cexFilesC5w [true] 0).2 :=
  ⟨(modules_mask_update cexFilesC5w [true] 0 0).1,
   (modules_mask_update cexFilesC5w [true] 0 0).2 rfl (by decide)⟩

/-- Module 0 has one file whose internal tables never intersect; module 1 is
healthy. -/
def cexFilesC5 : Nat → List ModuleFile := fun i =>
  if i = 0 then [⟨[1], [2]⟩] else if i = 1 then [⟨[5], [5]⟩] else []

/-- Counterexample to C5 as stated: module 0's internal intersection is empty,
yet its mask entry stays set and its (empty) timeline enters the fold, which
collapses the cross-module intersection to the empty list instead of
excluding the module. -/
theorem module_empty_intersection_not_deactivated_cex :
    process_module (cexFilesC5 0) = [] ∧
    (process_agipd_loop cexFilesC5 [true, true] 0).1 = [true, true] ∧
    (process_agipd_loop cexFilesC5 [true, true] 0).2 = [[], [5]] ∧
    reduce1 intersect1d [[], [5]] = some [] := by decide

/-- Python/numpy slice `l[s:e]` with the usual clamping behaviour. -/
def npSlice (l : List Nat) (s e : Nat) : List Nat := (l.drop s).take (e - s)

/-- Embedding of the chunk-emission loop of `save_agipd` (`vds_process.py`
lines 115-124) and `save_epix` (lines 148-155): the selected row indices
`file_idxs` are cut into `ceil(size / chunk_size)` batches
`file_idxs[chunk*chunk_size : min(shape0, (chunk+1)*chunk_size)]`, each bound
to the next output offset.  `shape0` is `file_data.shape[0]`, the number of
rows of the source file. -/
def save_chunks (file_idxs : List Nat) (chunk_size shape0 : Nat) :
    List (List Nat) :=
  (List.range ((file_idxs.length + chunk_size - 1) / chunk_size)).map
    (fun chunk =>
      npSlice file_idxs (chunk * chunk_size) (min shape0 ((chunk + 1) * chunk_size)))

/-- Under the invariant that every selected index is a row of the file
(`size ≤ shape0`), the `min shape0` clamp is inert and each batch is a plain
`take chunk_size` of the remaining indices. -/
lemma npSlice_chunk_eq_take (l : List Nat) (c shape0 k : Nat)
    (h : l.length ≤ shape0) :
    npSlice l (k * c) (min shape0 ((k + 1) * c)) = (l.drop (k * c)).take c := by
  unfold npSlice
  rw [List.take_eq_take]
  rw [List.length_drop]
  have hkc : (k + 1) * c = k * c + c := by ring
  rw [hkc]
  omega

/-- The canonical chunking identity: taking `ceil(length / c)` successive
`take c` batches reassembles the list. -/
lemma chunks_flatten (c : Nat) (hc : 0 < c) :
    ∀ (n : Nat) (l : List Nat), l.length ≤ n →
      ((List.range ((l.length + c - 1) / c)).map
        (fun k => (l.drop (k * c)).take c)).flatten = l := by
  intro n
  induction n with
  | zero =>
    intro l hl
    have hnil : l = [] := List.eq_nil_of_length_eq_zero (by omega)
    subst hnil
    simp [Nat.div_eq_of_lt (by omega : c - 1 < c)]
  | succ n ih =>
    intro l hl
    cases l with
    | nil => simp [Nat.div_eq_of_lt (by omega : c - 1 < c)]
    | cons a t =>
      have hlen : 0 < (a :: t).length := by simp
      have hn : ((a :: t).length + c - 1) / c =
          (((a :: t).length - c) + c - 1) / c + 1 := by
        rcases le_or_lt (a :: t).length c with hle | hlt
        · have h1 : (a :: t).length - c = 0 := by omega
          rw [h1]
          have h2 : (a :: t).length + c - 1 = ((a :: t).length - 1) + c := by omega
          rw [h2, Nat.add_div_right _ hc, Nat.div_eq_of_lt (by omega),
            Nat.div_eq_of_lt (by omega)]
        · have h2 : (a :: t).length - c + c - 1 = (a :: t).length - 1 := by omega
          have h3 : (a :: t).length + c - 1 = ((a :: t).length - 1) + c := by omega
          rw [h2, h3, Nat.add_div_right _ hc]
      have hdroplen : ((a :: t).drop c).length = (a :: t).length - c := by
        rw [List.length_drop]
      rw [hn, List.range_succ_eq_map, List.map_cons]
      have hmap : (List.map (fun k => ((a :: t).drop (k * c)).take c)
            (List.map Nat.succ (List.range ((((a :: t).length - c) + c - 1) / c)))) =
          (List.map (fun k => (((a :: t).drop c).drop (k * c)).take c)
            (List.range ((((a :: t).drop c).length + c - 1) / c))) := by
        rw [hdroplen, List.map_map]
        apply List.map_congr_left
        intro k _
        simp only [Function.comp]
        rw [List.drop_drop, Nat.succ_mul, Nat.add_comm (k * c) c]
      rw [hmap]
      have hih : (((a :: t).drop c).length ≤ n) := by
        rw [hdroplen]; simp at hl ⊢; omega
      rw [List.flatten_cons, ih ((a :: t).drop c) hih]
      simp [List.take_append_drop]

set_option maxRecDepth 4000 in
/-- C3 (amended): for each source file, the selected row indices are emitted
as successive batches of at most `chunk_size` indices each: the batches
concatenate, in order, to exactly the selected index list, and there are
exactly `ceil(size / chunk_size)` of them; in the spec scenario of chunk size
64 and 130 selected rows, exactly 3 batches of sizes 64, 64 and 2 are
emitted.  (The original claim's final clause fails: a batch is a run of up to
`chunk_size` *selected indices*, not a contiguous source sub-range, so a
single mapping entry can span more source rows than one storage chunk; see
the counterexample.) -/
theorem save_chunks_spec :
    (∀ (idxs : List Nat) (c shape0 : Nat), 0 < c → idxs.length ≤ shape0 →
      (save_chunks idxs c shape0).flatten = idxs ∧
      (∀ p ∈ save_chunks idxs c shape0, p.length ≤ c) ∧
      (save_chunks idxs c shape0).length = (idxs.length + c - 1) / c) ∧
    (save_chunks (List.range 130) 64 200).map List.length = [64, 64, 2] := by
  constructor
  · intro idxs c shape0 hc hshape
    have heq : save_chunks idxs c shape0 =
        (List.range ((idxs.length + c - 1) / c)).map
          (fun k => (idxs.drop (k * c)).take c) := by
      unfold save_chunks
      apply List.map_congr_left
      intro k _
      exact npSlice_chunk_eq_take idxs c shape0 k hshape
    refine ⟨?_, ?_, ?_⟩
    · rw [heq]
      exact chunks_flatten c hc idxs.length idxs (le_refl _)
    · intro p hp
      rw [heq] at hp
      rcases List.mem_map.mp hp with ⟨k, -, rfl⟩
      exact le_trans (List.length_take_le _ _) (le_refl c)
    · unfold save_chunks
      rw [List.length_map, List.length_range]
  · decide

/-- Witness for C3: the chunking identity applied at the spec scenario. -/
theorem save_chunks_spec_witness :
    (save_chunks (List.range 130) 64 200).flatten = List.range 130 :=
  (save_chunks_spec.1 (List.range 130) 64 200 (by norm_num)
    (by norm_num [List.length_range])).1

/-- Counterexample to C3 as stated: selected rows 0 and 100 of a file with 200
rows and storage chunk size 64 are emitted as a single mapping entry
`[0, 100]`, whose source rows span 101 rows — more than one 64-row chunk. -/
theorem save_chunks_span_cex :
    save_chunks [0, 100] 64 200 = [[0, 100]] ∧
    ¬ (∀ p ∈ save_chunks [0, 100] 64 200, ∀ x ∈ p, ∀ y ∈ p, y < x + 64) := by
  decide

/-- The composed AGIPD arrays read back by `AGIPDVDS` (`agipd.py` lines
30-64): raw sample data and gain-state data, shape
`(frames, modules, 512, 128)`, promoted to exact rationals (the spec's
floating-point arithmetic is modelled exactly). -/
structure AGIPDVDSData (F M : Nat) where
  data : Fin F → Fin M → Fin 512 → Fin 128 → ℚ
  gain : Fin F → Fin M → Fin 512 → Fin 128 → ℚ

/-- The dark-reference tables consumed by `AGIPDCalib` (`agipd.py` lines
9-28): per-module high-gain and medium-gain offsets, the medium-gain
gain-level threshold, the raw bad-pixel table and the inversion flag
(`mask_inv`).  The cell index is fixed (`cell_ids[0]` in `AGIPDVDS`), so it
is folded into the per-module tables. -/
structure DarkAGIPDData (M : Nat) where
  offsetHG : Fin M → Fin 512 → Fin 128 → ℚ
  offsetMG : Fin M → Fin 512 → Fin 128 → ℚ
  gainLevelMG : Fin M → Fin 512 → Fin 128 → ℚ
  badRaw : Fin M → Fin 512 → Fin 128 → ℚ
  maskInv : Bool

/-- `config.HG_GAIN = 1 / 68.8`. -/
def HG_GAIN : ℚ := 1 / 68.8

/-- `config.MG_GAIN = 1 / 1.376`. -/
def MG_GAIN : ℚ := 1 / 1.376

/-- `DarkAGIPD.bad_mask` (`agipd.py` lines 25-28): the static bad-pixel mask,
inverted (`1 - bad`) when the reference encodes good pixels as 0
(`mask_inv`). -/
def bad_mask {M : Nat} (dk : DarkAGIPDData M) (m : Fin M) (i : Fin 512)
    (j : Fin 128) : ℚ :=
  if dk.maskInv then 1 - dk.badRaw m i j else dk.badRaw m i j

/-- High-gain branch of `AGIPDCalib._init_adu` (`agipd.py` lines 82-93). -/
def aduHG {F M : Nat} (v : AGIPDVDSData F M) (dk : DarkAGIPDData M)
    (f : Fin F) (m : Fin M) (i : Fin 512) (j : Fin 128) : ℚ :=
  v.data f m i j - dk.offsetHG m i j

/-- Medium-gain branch of `AGIPDCalib._init_adu`. -/
def aduMG {F M : Nat} (v : AGIPDVDSData F M) (dk : DarkAGIPDData M)
    (f : Fin F) (m : Fin M) (i : Fin 512) (j : Fin 128) : ℚ :=
  v.data f m i j - dk.offsetMG m i j

/-- `AGIPDCalib._flat_correct` zero levels (`agipd.py` line 97):
`self.adu[0, :, 0:10].mean(axis=(2, 3))`.  The slice `0:10` lands on the
*module* axis of the `(frames, modules, 512, 128)` array, so for at most 10
active modules (the only case in which the subsequent broadcast subtraction
is well-formed) the zero level of frame `f` and module `m` is the mean of
that module's full 512 by 128 high-gain analog-difference image. -/
def zero_levels {F M : Nat} (v : AGIPDVDSData F M) (dk : DarkAGIPDData M)
    (f : Fin F) (m : Fin M) : ℚ :=
  (∑ i : Fin 512, ∑ j : Fin 128, aduHG v dk f m i j) / (512 * 128)

/-- The high-gain analog difference after the baseline subtraction of
`_flat_correct` (`agipd.py` line 98). -/
def aduHGcorr {F M : Nat} (v : AGIPDVDSData F M) (dk : DarkAGIPDData M)
    (f : Fin F) (m : Fin M) (i : Fin 512) (j : Fin 128) : ℚ :=
  aduHG v dk f m i j - zero_levels v dk f m

/-- Nominal-branch gain mask (`agipd.py` line 108): 1 iff
`gain < gain_level`. -/
def hg_mask {F M : Nat} (v : AGIPDVDSData F M) (dk : DarkAGIPDData M)
    (f : Fin F) (m : Fin M) (i : Fin 512) (j : Fin 128) : ℚ :=
  if v.gain f m i j < dk.gainLevelMG m i j then 1 else 0

/-- Reduced-sensitivity-branch gain mask (`agipd.py` line 109): 1 iff
`gain > gain_level`. -/
def mg_mask {F M : Nat} (v : AGIPDVDSData F M) (dk : DarkAGIPDData M)
    (f : Fin F) (m : Fin M) (i : Fin 512) (j : Fin 128) : ℚ :=
  if dk.gainLevelMG m i j < v.gain f m i j then 1 else 0

/-- Branch-0 combined mask (`agipd.py` line 111): gain mask times bad-pixel
mask. -/
def mask_hg {F M : Nat} (v : AGIPDVDSData F M) (dk : DarkAGIPDData M)
    (f : Fin F) (m : Fin M) (i : Fin 512) (j : Fin 128) : ℚ :=
  hg_mask v dk f m i j * bad_mask dk m i j

/-- Branch-1 combined mask (`agipd.py` line 111). -/
def mask_mg {F M : Nat} (v : AGIPDVDSData F M) (dk : DarkAGIPDData M)
    (f : Fin F) (m : Fin M) (i : Fin 512) (j : Fin 128) : ℚ :=
  mg_mask v dk f m i j * bad_mask dk m i j

/-- Branch-0 corrected data (`agipd.py` line 80):
`((adu * mask).T * GAIN).T` at branch 0. -/
def data_hg {F M : Nat} (v : AGIPDVDSData F M) (dk : DarkAGIPDData M)
    (f : Fin F) (m : Fin M) (i : Fin 512) (j : Fin 128) : ℚ :=
  aduHGcorr v dk f m i j * mask_hg v dk f m i j * HG_GAIN

/-- Branch-1 corrected data (`agipd.py` line 80). -/
def data_mg {F M : Nat} (v : AGIPDVDSData F M) (dk : DarkAGIPDData M)
    (f : Fin F) (m : Fin M) (i : Fin 512) (j : Fin 128) : ℚ :=
  aduMG v dk f m i j * mask_mg v dk f m i j * MG_GAIN

/-- `AGIPDCalib.calib_data` (`agipd.py` lines 114-116): the element-wise sum
of the two corrected branches. -/
def calib_data {F M : Nat} (v : AGIPDVDSData F M) (dk : DarkAGIPDData M)
    (f : Fin F) (m : Fin M) (i : Fin 512) (j : Fin 128) : ℚ :=
  data_hg v dk f m i j + data_mg v dk f m i j

/-- The zero level as the claim words it: the per-event mean of the
nominal-branch analog-difference over the leading sample window, image rows
0 to 9 (all 128 columns). -/
def zero_levels_claim {F M : Nat} (v : AGIPDVDSData F M) (dk : DarkAGIPDData M)
    (f : Fin F) (m : Fin M) : ℚ :=
  (∑ i ∈ Finset.univ.filter (fun i : Fin 512 => (i : ℕ) < 10),
    ∑ j : Fin 128, aduHG v dk f m i j) / (10 * 128)

/-- The per-pixel calibrated value exactly as the claim states it, with the
zero level taken over image rows 0 to 9. -/
def calib_data_claim {F M : Nat} (v : AGIPDVDSData F M) (dk : DarkAGIPDData M)
    (f : Fin F) (m : Fin M) (i : Fin 512) (j : Fin 128) : ℚ :=
  HG_GAIN * hg_mask v dk f m i j * bad_mask dk m i j *
    (v.data f m i j - dk.offsetHG m i j - zero_levels_claim v dk f m) +
  MG_GAIN * mg_mask v dk f m i j * bad_mask dk m i j *
    (v.data f m i j - dk.offsetMG m i j)

/-- C4 (amended): the final calibrated value per pixel per event equals
`(1/68.8) * hg_mask * bad * (raw - hg_offset - zero_level)
 + (1/1.376) * mg_mask * bad * (raw - mg_offset)` with
`hg_mask = 1` iff `gain_state < threshold`, `mg_mask = 1` iff
`gain_state > threshold` (equality zero-weights both branches) and `bad` the
static bad-pixel mask inverted when the reference encodes good as 0 — but
where `zero_level` is the per-event, per-module mean of the nominal-branch
analog-difference over the module's *full image* (the code's `0:10` window
falls on the module axis), not over image rows 0 to 9 as the claim states
(see the counterexample). -/
theorem calib_data_formula {F M : Nat} (v : AGIPDVDSData F M)
    (dk : DarkAGIPDData M) (_hM : M ≤ 10) (f : Fin F) (m : Fin M)
    (i : Fin 512) (j : Fin 128) :
    calib_data v dk f m i j =
      HG_GAIN * hg_mask v dk f m i j * bad_mask dk m i j *
        (v.data f m i j - dk.offsetHG m i j - zero_levels v dk f m) +
      MG_GAIN * mg_mask v dk f m i j * bad_mask dk m i j *
        (v.data f m i j - dk.offsetMG m i j) := by
  unfold calib_data data_hg data_mg aduHGcorr aduHG aduMG mask_hg mask_mg
  ring

/-- One frame, one module; the raw value is 5120 on image row 0 and 0
elsewhere, all reference tables trivial, gain threshold 1. -/
def cexVdsC4 : AGIPDVDSData 1 1 :=
  { data := fun _ _ i _ => if i = (0 : Fin 512) then 5120 else 0
    gain := fun _ _ _ _ => 0 }

def cexDarkC4 : DarkAGIPDData 1 :=
  { offsetHG := fun _ _ _ => 0
    offsetMG := fun _ _ _ => 0
    gainLevelMG := fun _ _ _ => 1
    badRaw := fun _ _ _ => 0
    maskInv := true }

lemma cexC4_zero_levels : zero_levels cexVdsC4 cexDarkC4 0 0 = 10 := by
  unfold zero_levels aduHG cexVdsC4 cexDarkC4
  simp only [sub_zero, Finset.sum_const, Finset.card_univ, Fintype.card_fin,
    nsmul_eq_mul, ← Finset.mul_sum, Finset.sum_ite_eq', Finset.mem_univ,
    if_true]
  norm_num

lemma cexC4_zero_levels_claim :
    zero_levels_claim cexVdsC4 cexDarkC4 0 0 = 512 := by
  unfold zero_levels_claim aduHG cexVdsC4 cexDarkC4
  simp only [sub_zero, Finset.sum_const, Finset.card_univ, Fintype.card_fin,
    nsmul_eq_mul, ← Finset.mul_sum, Finset.sum_ite_eq', Finset.mem_filter,
    Finset.mem_univ, true_and]
  norm_num

/-- Counterexample to C4 as stated: at the pixel in image row 5, the code's
zero level (full-image mean, 10) differs from the claimed leading-row-window
zero level (512), so the claimed formula does not reproduce the code's
calibrated value. -/
theorem calib_data_claim_cex :
    calib_data cexVdsC4 cexDarkC4 0 0 ⟨5, by norm_num⟩ 0 ≠
      calib_data_claim cexVdsC4 cexDarkC4 0 0 ⟨5, by norm_num⟩ 0 := by
  unfold calib_data calib_data_claim data_hg data_mg aduHGcorr aduHG aduMG
    mask_hg mask_mg hg_mask mg_mask bad_mask
  rw [cexC4_zero_levels, cexC4_zero_levels_claim]
  norm_num [cexVdsC4, cexDarkC4, Fin.ext_iff, HG_GAIN, MG_GAIN]

/-- Witness for C4: the amended per-pixel formula holds at a concrete
composed dataset and dark reference. -/
theorem calib_data_formula_witness :
    (1 : Nat) ≤ 10 ∧
    calib_data cexVdsC4 cexDarkC4 0 0 0 0 =
      HG_GAIN * hg_mask cexVdsC4 cexDarkC4 0 0 0 0 * bad_mask cexDarkC4 0 0 0 *
        (cexVdsC4.data 0 0 0 0 - cexDarkC4.offsetHG 0 0 0 -
          zero_levels cexVdsC4 cexDarkC4 0 0) +
      MG_GAIN * mg_mask cexVdsC4 cexDarkC4 0 0 0 0 * bad_mask cexDarkC4 0 0 0 *
        (cexVdsC4.data 0 0 0 0 - cexDarkC4.offsetMG 0 0 0) :=
  ⟨by norm_num, calib_data_formula cexVdsC4 cexDarkC4 (by norm_num) 0 0 0 0⟩

/-- A two-branch stacked array (`np.stack((hg, mg))`). -/
def twoBranch {α : Type} (x y : α) : Fin 2 → α :=
  fun b => if b.val = 0 then x else y

/-- The datasets created by `AGIPDCalib.save_data` (`agipd.py` lines
118-122): exactly the three stacked intermediates `adu`, `mask` and `data`,
keyed by name inside the calibrated output group. -/
def save_data_entries {F M : Nat} (v : AGIPDVDSData F M)
    (dk : DarkAGIPDData M) :
    List (String × (Fin 2 → Fin F → Fin M → Fin 512 → Fin 128 → ℚ)) :=
  [("adu", twoBranch (aduHGcorr v dk) (aduMG v dk)),
   ("mask", twoBranch (mask_hg v dk) (mask_mg v dk)),
   ("data", twoBranch (data_hg v dk) (data_mg v dk))]

/-- `config.AGIPD_CALIB_KEY`. -/
def AGIPD_CALIB_KEY : String := "data/AGIPD_calibrated"

/-- The dataset keys written by `create_vds` during composition
(`vds_process.py` lines 240-272, with the key names from `config.py`). -/
def create_vds_keys : List String :=
  ["index/run", "index/stream", "index/trainId", "data/AGIPD/moduleId",
   "data/AGIPD/index/trainId", "data/AGIPD/index/cellId",
   "data/AGIPD/index/pulseId", "data/AGIPD/index/data",
   "data/AGIPD/index/gain", "data/EPIX-1/data", "data/EPIX-2/data"]

/-- The dataset keys written by the calibration pass (`agipd.py` lines
118-122). -/
def calib_keys : List String :=
  ["data/AGIPD_calibrated/adu", "data/AGIPD_calibrated/mask",
   "data/AGIPD_calibrated/data"]

/-- The dataset keys written by `main` (`vds_process.py` lines 278-290):
the composition keys always, the calibrated group only when the `--calib`
flag is given. -/
def main_writes (calibFlag : Bool) : List String :=
  create_vds_keys ++ (if calibFlag then calib_keys else [])

/-- C8 (amended): each of the three intermediate datasets `adu`, `mask` and
`data` is written under the calibrated output group exactly when a
calibration pass is requested, and none of them is written otherwise.  (The
original claim's "alongside the final summed result" fails: `save_data`
writes only the three intermediates and the summed `calib_data` array is
never persisted; see the counterexample.) -/
theorem calib_outputs_iff_requested :
    ∀ calibFlag : Bool,
      ("data/AGIPD_calibrated/adu" ∈ main_writes calibFlag ↔ calibFlag = true) ∧
      ("data/AGIPD_calibrated/mask" ∈ main_writes calibFlag ↔ calibFlag = true) ∧
      ("data/AGIPD_calibrated/data" ∈ main_writes calibFlag ↔ calibFlag = true) := by
  intro calibFlag
  cases calibFlag <;> decide

/-- All-zero raw data; medium-gain offset `-2`, gain threshold `-1`, so the
reduced-sensitivity branch is live and the summed result is `2 * MG_GAIN`. -/
def cexVdsC8 : AGIPDVDSData 1 1 :=
  { data := fun _ _ _ _ => 0
    gain := fun _ _ _ _ => 0 }

def cexDarkC8 : DarkAGIPDData 1 :=
  { offsetHG := fun _ _ _ => 0
    offsetMG := fun _ _ _ => -2
    gainLevelMG := fun _ _ _ => -1
    badRaw := fun _ _ _ => 0
    maskInv := true }

lemma cexC8_zero_levels : zero_levels cexVdsC8 cexDarkC8 0 0 = 0 := by
  simp [zero_levels, aduHG, cexVdsC8, cexDarkC8]

lemma cexC8_calib_val : calib_data cexVdsC8 cexDarkC8 0 0 0 0 = 2 * MG_GAIN := by
  unfold calib_data data_hg data_mg aduHGcorr aduHG aduMG mask_hg mask_mg
    hg_mask mg_mask bad_mask
  rw [cexC8_zero_levels]
  norm_num [cexVdsC8, cexDarkC8]

/-- Counterexample to C8 as stated: at a concrete composed dataset and dark
reference, none of the three datasets written by `save_data` equals the
final summed result, which is therefore not persisted alongside them. -/
theorem summed_result_not_persisted_cex :
    ¬ ∃ e ∈ save_data_entries cexVdsC8 cexDarkC8,
        ∀ (b : Fin 2) (f m : Fin 1) (i : Fin 512) (j : Fin 128),
          e.2 b f m i j = calib_data cexVdsC8 cexDarkC8 f m i j := by
  rintro ⟨e, he, hall⟩
  have h0 := hall 0 0 0 0 0
  rw [cexC8_calib_val] at h0
  simp only [save_data_entries, List.mem_cons, List.not_mem_nil, or_false] at he
  rcases he with rfl | rfl | rfl
  · rw [show (("adu", twoBranch (aduHGcorr cexVdsC8 cexDarkC8)
        (aduMG cexVdsC8 cexDarkC8))).2 0 = aduHGcorr cexVdsC8 cexDarkC8
      from rfl] at h0
    rw [show aduHGcorr cexVdsC8 cexDarkC8 0 0 0 0 =
        aduHG cexVdsC8 cexDarkC8 0 0 0 0 - zero_levels cexVdsC8 cexDarkC8 0 0
      from rfl, cexC8_zero_levels] at h0
    norm_num [aduHG, cexVdsC8, cexDarkC8, MG_GAIN] at h0
  · rw [show (("mask", twoBranch (mask_hg cexVdsC8 cexDarkC8)
        (mask_mg cexVdsC8 cexDarkC8))).2 0 = mask_hg cexVdsC8 cexDarkC8
      from rfl] at h0
    norm_num [mask_hg, hg_mask, bad_mask, cexVdsC8, cexDarkC8, MG_GAIN] at h0
  · rw [show (("data", twoBranch (data_hg cexVdsC8 cexDarkC8)
        (data_mg cexVdsC8 cexDarkC8))).2 0 = data_hg cexVdsC8 cexDarkC8
      from rfl] at h0
    rw [show data_hg cexVdsC8 cexDarkC8 0 0 0 0 =
        aduHGcorr cexVdsC8 cexDarkC8 0 0 0 0 * mask_hg cexVdsC8 cexDarkC8 0 0 0 0
          * HG_GAIN from rfl] at h0
    norm_num [mask_hg, hg_mask, bad_mask, cexVdsC8, cexDarkC8, MG_GAIN] at h0

/-- The HDF5 output container as an association list of dataset keys; the
latest write wins on lookup. -/
def h5get {α : Type} (file : List (String × α)) (k : String) : Option α :=
  (file.reverse.find? (fun e => e.1 == k)).map (fun e => e.2)

/-- The writes performed by `AGIPDCalib.save_data` (`agipd.py` lines
118-122), appended to the reopened output container. -/
def apply_dark_writes {α : Type} (adu mask data : α) : List (String × α) :=
  [("data/AGIPD_calibrated/adu", adu), ("data/AGIPD_calibrated/mask", mask),
   ("data/AGIPD_calibrated/data", data)]

/-- Embedding of `apply_dark` (`agipd.py` lines 124-137): if the calibration
computation succeeds, its three arrays are appended to the container; if it
raises before `save_data`, the container is untouched. -/
def apply_dark_model {α : Type} (file : List (String × α))
    (calcResult : Except String (α × α × α)) : List (String × α) :=
  match calcResult with
  | Except.ok t => file ++ apply_dark_writes t.1 t.2.1 t.2.2
  | Except.error _ => file

lemma h5get_append_of_ne {α : Type} (file es : List (String × α)) (k : String)
    (h : ∀ e ∈ es, e.1 ≠ k) : h5get (file ++ es) k = h5get file k := by
  unfold h5get
  rw [List.reverse_append, List.find?_append]
  have hnone : es.reverse.find? (fun e => e.1 == k) = none := by
    rw [List.find?_eq_none]
    intro e he
    simpa using h e (List.mem_reverse.mp he)
  rw [hnone]
  rfl

/-- C9: the calibration pass only appends the calibrated group — every
dataset key written during composition resolves to the same content before
and after `apply_dark`, and a calibration failure leaves the composed
container untouched. -/
theorem apply_dark_frame :
    (∀ (α : Type) (file : List (String × α)) (r : α × α × α) (k : String),
      k ∈ create_vds_keys →
      h5get (apply_dark_model file (Except.ok r)) k = h5get file k) ∧
    (∀ (α : Type) (file : List (String × α)) (err : String),
      apply_dark_model file (Except.error err) = file) := by
  constructor
  · intro α file r k hk
    show h5get (file ++ apply_dark_writes r.1 r.2.1 r.2.2) k = h5get file k
    apply h5get_append_of_ne
    intro e he
    simp only [create_vds_keys, List.mem_cons, List.not_mem_nil, or_false] at hk
    simp only [apply_dark_writes, List.mem_cons, List.not_mem_nil, or_false] at he
    rcases hk with rfl | rfl | rfl | rfl | rfl | rfl | rfl | rfl | rfl | rfl | rfl <;>
      rcases he with rfl | rfl | rfl <;> exact ne_of_beq_false rfl
  · intro α file err
    rfl

/-- Witness for C9: a concrete composed container, unchanged at the key
`index/trainId` by a successful calibration pass. -/
theorem apply_dark_frame_witness :
    h5get (apply_dark_model [("index/trainId", (0 : Nat))]
        (Except.ok (1, 2, 3))) "index/trainId" =
      h5get [("index/trainId", (0 : Nat))] "index/trainId" :=
  apply_dark_frame.1 Nat [("index/trainId", 0)] (1, 2, 3) "index/trainId"
    (by decide)

/-- The guard of `create_vds` (`vds_process.py` lines 185-187): the
run-number error is raised iff the EPIX-1 glob, the EPIX-2 glob and the
AGIPD *module 0* glob all matched nothing.  `agipd_files i` is the sorted
glob result for module `i`; only module 0 is consulted (line 181). -/
def raises_bad_run (e1_descriptor e2_descriptor : List String)
    (agipd_files : Nat → List String) : Bool :=
  e1_descriptor.isEmpty && e2_descriptor.isEmpty && (agipd_files 0).isEmpty

/-- The claim's condition: no configured stream of the run has any
discoverable source file. -/
def no_stream_has_files (modules_mask : List Bool)
    (agipd_files : Nat → List String)
    (e1_descriptor e2_descriptor : List String) : Prop :=
  e1_descriptor = [] ∧ e2_descriptor = [] ∧
    ∀ i, modules_mask.get? i = some true → agipd_files i = []

/-- C6 (amended): `create_vds` raises the run-number error iff EPIX-1,
EPIX-2 and AGIPD module 0 each have no discoverable file; configured modules
other than 0 are not consulted by the guard, so the error can be raised even
when another configured module has files (see the counterexample).  Batch
independence of runs is provided externally: `vds_batch.py` submits one
scheduler job per run. -/
theorem bad_run_guard :
    ∀ (e1_descriptor e2_descriptor : List String)
      (agipd_files : Nat → List String),
      raises_bad_run e1_descriptor e2_descriptor agipd_files = true ↔
        (e1_descriptor = [] ∧ e2_descriptor = [] ∧ agipd_files 0 = []) := by
  intro e1 e2 g
  simp [raises_bad_run, List.isEmpty_iff, Bool.and_eq_true, and_assoc]

/-- Module 5 has a file; every other module and both EPIX detectors have
none. -/
def cexFilesC6 : Nat → List String := fun i => if i = 5 then ["f"] else []

/-- Counterexample to C6 as stated: the run-number error is raised although
configured module 5 has a discoverable file, because the guard only checks
module 0. -/
theorem bad_run_guard_cex :
    raises_bad_run [] [] cexFilesC6 = true ∧
    ¬ no_stream_has_files (List.replicate 16 true) cexFilesC6 [] [] := by
  constructor
  · decide
  · rintro ⟨-, -, h⟩
    have h5 := h 5 (by decide)
    simp [cexFilesC6] at h5

/-- `save_agipd` (`vds_process.py` line 91) creates the per-row `trainId`
index dataset with dtype `np.uint16`; on write (line 111) h5py hands the
uint64-to-uint16 conversion to HDF5, whose default integer-overflow handling
clamps an out-of-range value to the destination maximum `2 ^ 16 - 1`. -/
def stored_train_id (t : Nat) : Nat := min t (2 ^ 16 - 1)

/-- C7 (code bug): train identifiers are not persisted exactly — the per-row
`trainId` dataset is 16 bits wide, so any train ID of `2 ^ 16` or more is
clamped to `65535` on write and stored as a different value (the per-train
`pulseId` dataset, by contrast, is created as `np.uint64` on line 93). -/
theorem train_id_truncated :
    stored_train_id 70000 = 65535 ∧ stored_train_id 70000 ≠ 70000 ∧
    stored_train_id 1234567890 = 65535 ∧
    stored_train_id 1234567890 ≠ 1234567890 ∧
    stored_train_id 65535 = 65535 := by
  decide

/-- The guard of the EPIX-2 save step (`vds_process.py` line 267) tests
`e1_descriptor`, the EPIX-1 file list. -/
def epix2_save_attempted (e1_descriptor : List String) : Bool :=
  !e1_descriptor.isEmpty

/-- The EPIX-2 output dataset is actually created only when the (EPIX-1)
guard passes *and* the EPIX-2 trains were defined (lines 175-177): with no
EPIX-2 files the attempted save step fails on the undefined `e2_trains`
argument before anything is written. -/
def epix2_dataset_written (e1_descriptor e2_descriptor : List String) : Bool :=
  !e1_descriptor.isEmpty && !e2_descriptor.isEmpty

/-- C10: the EPIX-2 save step is guarded by the presence of EPIX-1 files:
it is attempted exactly when EPIX-1 files exist (even when no EPIX-2 files
were discovered), and when EPIX-2 files exist but EPIX-1 files do not, no
EPIX-2 dataset is written. -/
theorem epix2_guard_on_epix1 :
    ∀ e1_descriptor e2_descriptor : List String,
      (epix2_save_attempted e1_descriptor = true ↔ e1_descriptor ≠ []) ∧
      (e2_descriptor ≠ [] → e1_descriptor = [] →
        epix2_dataset_written e1_descriptor e2_descriptor = false) ∧
      (e1_descriptor ≠ [] → epix2_save_attempted e1_descriptor = true) := by
  intro e1 e2
  refine ⟨?_, ?_, ?_⟩
  · simp [epix2_save_attempted, List.isEmpty_iff]
  · rintro - rfl
    simp [epix2_dataset_written]
  · intro h
    simp [epix2_save_attempted, List.isEmpty_iff, h]

/-- Witness for C10: with EPIX-2 files but no EPIX-1 files nothing is
written; with EPIX-1 files the step is attempted. -/
theorem epix2_guard_on_epix1_witness :
    epix2_dataset_written [] ["e2file"] = false ∧
    epix2_save_attempted ["e1file"] = true :=
  ⟨(epix2_guard_on_epix1 [] ["e2file"]).2.1 (by decide) rfl,
   (epix2_guard_on_epix1 ["e1file"] []).2.2 (by decide)⟩

end Vds
